import Mathlib

/-!
Verification of the analytics computation core of the YouTube analytics
repository (`analytics_engine.py`).  The stored tables are modelled as
Lean lists of records; integer and floating-point arithmetic of the
source is modelled exactly over `ℚ`.  Storage access (the sqlite
connection plus `pd.read_sql_query`) is modelled by an `Except`-valued
input: `.ok rows` is a successful query returning `rows`, `.error e` is
a storage failure raised inside the `try` block.  The SQL
`ORDER BY v.views DESC` is modelled as a stable descending sort on the
stored (insertion) order.
-/

/-- Row of the `video_analytics`-join query issued by
`analyze_video_performance` (columns in the SELECT order of the source:
title, views, likes, comments_count, engagement_rate, published_at,
channel_name).  Numeric columns are modelled over `ℚ`. -/
structure Video where
  title : String
  views : ℚ
  likes : ℚ
  comments_count : ℚ
  engagement_rate : ℚ
  published_at : String
  channel_name : String
deriving DecidableEq, Repr

instance : Inhabited Video := ⟨⟨"", 0, 0, 0, 0, "", ""⟩⟩

/-- Row of the channel-overview join query issued by
`get_channel_overview`.  The aggregate columns come from a LEFT JOIN and
may be NULL, hence `Option ℚ`. -/
structure OverviewRow where
  channel_name : String
  subscriber_count : ℚ
  view_count : ℚ
  video_count : ℚ
  videos_analyzed : ℚ
  avg_video_views : Option ℚ
  avg_video_likes : Option ℚ
  avg_engagement_rate : Option ℚ
  best_video_views : Option ℚ
  worst_video_views : Option ℚ
deriving DecidableEq, Repr

instance : Inhabited OverviewRow :=
  ⟨⟨"", 0, 0, 0, 0, none, none, none, none, none⟩⟩

/-- Arithmetic mean of a list, modelling `pandas.Series.mean`. -/
def mean (l : List ℚ) : ℚ := l.sum / (l.length : ℚ)

/-- Linear interpolation between order statistics of the (already
sorted) list `s` at fractional index `h`: the value
`s[floor h] + (h - floor h) * (s[floor h + 1] - s[floor h])` used by
pandas/numpy linear ("type 7") quantile estimation. -/
def interpolate (s : List ℚ) (h : ℚ) : ℚ :=
  s.getD (⌊h⌋).toNat 0 +
    (h - (⌊h⌋ : ℚ)) *
      (s.getD ((⌊h⌋).toNat + 1) (s.getD (⌊h⌋).toNat 0) - s.getD (⌊h⌋).toNat 0)

/-- Decidability of the ascending comparison used to sort view counts. -/
instance decQLe : DecidableRel (fun a b : ℚ => a ≤ b) :=
  fun a b => inferInstanceAs (Decidable (a ≤ b))

/-- Quantile of a list of values, modelling `pandas.Series.quantile`
with the default linear interpolation: sort ascending and interpolate at
fractional index `(n - 1) * q`. -/
def quantile (l : List ℚ) (q : ℚ) : ℚ :=
  interpolate (List.insertionSort (fun a b : ℚ => a ≤ b) l)
    (((l.length : ℚ) - 1) * q)

/-- Decidability of the descending-views comparison of the SQL
`ORDER BY v.views DESC`. -/
instance decViewsDesc : DecidableRel (fun a b : Video => b.views ≤ a.views) :=
  fun a b => inferInstanceAs (Decidable (b.views ≤ a.views))

/-- Result ordering of the video query of `analyze_video_performance`:
`ORDER BY v.views DESC`, modelled as a stable descending sort on the
stored (insertion) order of the rows. -/
def sortByViewsDesc (l : List Video) : List Video :=
  List.insertionSort (fun a b : Video => b.views ≤ a.views) l

/-- Bucket predicate of `videos_df['views'] > quantile(0.75)` (line 107
of the source), applied per row. -/
def highPerf (vs : List ℚ) (v : Video) : Bool :=
  decide (quantile vs (3/4) < v.views)

/-- Bucket predicate of
`(views >= quantile(0.25)) & (views <= quantile(0.75))` (lines 108-109
of the source), applied per row. -/
def medPerf (vs : List ℚ) (v : Video) : Bool :=
  decide (quantile vs (1/4) ≤ v.views) && decide (v.views ≤ quantile vs (3/4))

/-- Bucket predicate of `videos_df['views'] < quantile(0.25)` (line 110
of the source), applied per row. -/
def lowPerf (vs : List ℚ) (v : Video) : Bool :=
  decide (v.views < quantile vs (1/4))

/-- The `view_distribution` sub-dictionary of the analysis. -/
structure ViewDistribution where
  high_performers : ℕ
  medium_performers : ℕ
  low_performers : ℕ
deriving DecidableEq, Repr

/-- The `analysis` dictionary built at lines 99-112 of the source. -/
structure Analysis where
  total_videos : ℕ
  total_views : ℚ
  avg_views : ℚ
  median_views : ℚ
  best_performing : Video
  avg_engagement_rate : ℚ
  view_distribution : ViewDistribution
deriving DecidableEq, Repr

/-- Construction of the `analysis` dictionary from the (descending
sorted) `videos_df`.  `median_views` models `pandas.Series.median`, the
50th percentile with linear interpolation; `best_performing` models
`videos_df.iloc[0].to_dict()` (the head of the descending-sorted
table, only evaluated on a non-empty table). -/
def mkAnalysis (df : List Video) : Analysis :=
  let vs := df.map (fun v => v.views)
  { total_videos := df.length
    total_views := vs.sum
    avg_views := mean vs
    median_views := quantile vs (1/2)
    best_performing := df.headD default
    avg_engagement_rate := mean (df.map (fun v => v.engagement_rate))
    view_distribution :=
      { high_performers := df.countP (highPerf vs)
        medium_performers := df.countP (medPerf vs)
        low_performers := df.countP (lowPerf vs) } }

/-- Return value of `analyze_video_performance`, which has no single
shape in the source: line 96 returns a bare empty dict `{}`, line 114
returns the tuple `(analysis, videos_df)` and line 118 returns the tuple
`({}, pd.DataFrame())`.  The empty dict of the tuple branches is
modelled as `none`. -/
inductive AnalyzeResult where
  | emptyDict : AnalyzeResult
  | pair : Option Analysis → List Video → AnalyzeResult
deriving DecidableEq, Repr

/-- Embedding of `analyze_video_performance` (lines 68-118 of the
source): on a storage failure the enclosing `except` returns
`({}, pd.DataFrame())`; otherwise the query returns the rows sorted by
views descending, an empty table returns the bare `{}`, and a non-empty
table returns `(analysis, videos_df)`. -/
def analyze_video_performance (fetch : Except String (List Video)) :
    AnalyzeResult :=
  match fetch with
  | .error _ => .pair none []
  | .ok rows =>
    let videos_df := sortByViewsDesc rows
    if videos_df.isEmpty then .emptyDict
    else .pair (some (mkAnalysis videos_df)) videos_df

/-- Embedding of `get_channel_overview` (lines 24-66 of the source): a
storage failure is caught and an empty DataFrame is returned; otherwise
the query rows are returned. -/
def get_channel_overview (fetch : Except String (List OverviewRow)) :
    List OverviewRow :=
  match fetch with
  | .error _ => []
  | .ok rows => rows

/-- The three mutually exclusive engagement statements of insight 1
(lines 243-248 of the source). -/
inductive EngagementInsight where
  | high : EngagementInsight
  | moderate : EngagementInsight
  | low : EngagementInsight
deriving DecidableEq, Repr

/-- Insight rule 1 of `generate_insights_report`:
`if avg > 3.0: high elif avg > 1.0: moderate else: low`. -/
def engagementInsight (r : ℚ) : EngagementInsight :=
  if 3 < r then .high else if 1 < r then .moderate else .low

/-- The two consistency statements of insight 2 (lines 251-255). -/
inductive ConsistencyInsight where
  | consistent : ConsistencyInsight
  | highVariability : ConsistencyInsight
deriving DecidableEq, Repr

/-- Sum of squared deviations from the mean, the numerator of the
variance of the view counts. -/
def ssd (l : List ℚ) : ℚ := (l.map (fun x => (x - mean l) ^ 2)).sum

/-- Sample variance with divisor `n - 1`, the square of
`pandas.Series.std` (default `ddof=1`). -/
def sampleVar (l : List ℚ) : ℚ := ssd l / ((l.length : ℚ) - 1)

/-- Exact model of the float comparison
`(std(views, ddof=1) / mean(views)) * 100 < 50` at line 251-252 of the
source.  `std` of fewer than two values is NaN, and every comparison
with NaN is false; a zero mean makes the ratio NaN (0/0) or +inf, so
the comparison is false; a negative mean makes the ratio nonpositive,
so the comparison is true; otherwise both sides are positive reals and
the comparison squares to an exact rational comparison. -/
def cvLt50 (l : List ℚ) : Bool :=
  if l.length < 2 then false
  else if mean l = 0 then false
  else if mean l < 0 then true
  else decide (ssd l * 10000 < 2500 * ((l.length : ℚ) - 1) * mean l ^ 2)

/-- Insight rule 2 of `generate_insights_report`: coefficient of
variation below 50 means consistent performance, otherwise high
variability. -/
def consistencyInsight (l : List ℚ) : ConsistencyInsight :=
  if cvLt50 l then .consistent else .highVariability

/-- The two distribution statements of insight 3 (lines 258-261). -/
inductive DistributionInsight where
  | moreHigh : DistributionInsight
  | improve : DistributionInsight
deriving DecidableEq, Repr

/-- Insight rule 3 of `generate_insights_report`:
`if dist['high_performers'] > dist['low_performers']`. -/
def distributionInsight (d : ViewDistribution) : DistributionInsight :=
  if d.low_performers < d.high_performers then .moreHigh else .improve

/-- Structured content of a successfully generated insights report:
the channel header, the analysis numbers and the three insight
statements in their fixed order. -/
structure Report where
  channel_name : String
  analysis : Analysis
  engagement : EngagementInsight
  consistency : ConsistencyInsight
  distribution : DistributionInsight
deriving DecidableEq, Repr

/-- Outcome of one call of `generate_insights_report`: the two explicit
no-data early returns (lines 196 and 202), a fully generated report, or
the generic `except Exception` branch at line 270-271 that catches any
exception raised inside the body. -/
inductive ReportOutcome where
  | noChannelData : ReportOutcome
  | noVideoData : ReportOutcome
  | done : Report → ReportOutcome
  | caughtError : ReportOutcome
deriving DecidableEq, Repr

/-- Python tuple unpacking `analysis, videos_df = result` applied to the
result of `analyze_video_performance`: unpacking the bare empty dict
`{}` iterates zero keys and raises `ValueError` (modelled `none`);
unpacking a 2-tuple succeeds. -/
def unpack2 (r : AnalyzeResult) : Option (Option Analysis × List Video) :=
  match r with
  | .emptyDict => none
  | .pair a df => some (a, df)

/-- Embedding of `generate_insights_report` (lines 187-271 of the
source).  An empty overview prints the no-channel-data message and
returns; then `analysis, videos_df = self.analyze_video_performance(..)`
unpacks the result — the `ValueError` of the empty-dict shape is caught
by the enclosing generic `except`; a falsy `analysis` (the storage-error
tuple) prints the no-video-analysis message and returns; otherwise the
report and the three insights are produced. -/
def generate_insights_report (chanFetch : Except String (List OverviewRow))
    (vidFetch : Except String (List Video)) : ReportOutcome :=
  let overview := get_channel_overview chanFetch
  if overview.isEmpty then .noChannelData
  else
    match unpack2 (analyze_video_performance vidFetch) with
    | none => .caughtError
    | some (none, _) => .noVideoData
    | some (some analysis, videos_df) =>
      .done { channel_name := (overview.headD default).channel_name
              analysis := analysis
              engagement := engagementInsight analysis.avg_engagement_rate
              consistency := consistencyInsight (videos_df.map (fun v => v.views))
              distribution := distributionInsight analysis.view_distribution }

/-- Outcome of one call of `create_performance_visualizations`. -/
inductive VizOutcome where
  | noData : VizOutcome
  | saved : VizOutcome
  | caughtError : VizOutcome
deriving DecidableEq, Repr

/-- Embedding of `create_performance_visualizations` (lines 120-185 of
the source): it destructures the result of `analyze_video_performance`
(line 123) inside a generic try/except, returns the no-data message on
an empty table and otherwise saves the figure. -/
def create_performance_visualizations
    (vidFetch : Except String (List Video)) : VizOutcome :=
  match unpack2 (analyze_video_performance vidFetch) with
  | none => .caughtError
  | some (_, videos_df) => if videos_df.isEmpty then .noData else .saved

/-- Projection of the consistency insight out of a report outcome. -/
def reportConsistency (o : ReportOutcome) : Option ConsistencyInsight :=
  match o with
  | .done r => some r.consistency
  | _ => none

/-- Concrete channel-overview row used to exercise the report pipeline
at concrete inputs. -/
def sampleChannel : OverviewRow :=
  ⟨"Tech Channel", 1000, 50000, 10, 0, none, none, none, none, none⟩

/-- Concrete video table in which every row has zero views, so that the
mean of the view counts is zero. -/
def zeroViewsInput : List Video :=
  [⟨"a", 0, 0, 0, 0, "", ""⟩, ⟨"b", 0, 0, 0, 0, "", ""⟩]

/-- Concrete singleton table used to instantiate the result-shape
claim. -/
def wTenInput : List Video := [⟨"only", 7, 1, 1, 2, "", ""⟩]

/-- Concrete table with views 10, 20, 30, 40 used to instantiate the
bucket-partition and median claims. -/
def wOneInput : List Video :=
  [⟨"a", 10, 1, 0, 1, "", ""⟩, ⟨"b", 20, 2, 0, 1, "", ""⟩,
   ⟨"c", 30, 3, 0, 1, "", ""⟩, ⟨"d", 40, 4, 0, 1, "", ""⟩]

/-- Concrete table in which every video has the same view count 7. -/
def wSevenInput : List Video :=
  [⟨"a", 7, 1, 0, 1, "", ""⟩, ⟨"b", 7, 2, 0, 1, "", ""⟩,
   ⟨"c", 7, 3, 0, 1, "", ""⟩]

/-- Concrete table with three views 10, 20, 30 for the odd-length
median example. -/
def wOddInput : List Video :=
  [⟨"a", 10, 1, 0, 1, "", ""⟩, ⟨"b", 20, 2, 0, 1, "", ""⟩,
   ⟨"c", 30, 3, 0, 1, "", ""⟩]

/-- Concrete table with a duplicated maximum view count: the rows
titled second and third both have 9 views. -/
def wTieInput : List Video :=
  [⟨"first", 5, 1, 0, 1, "", ""⟩, ⟨"second", 9, 2, 0, 1, "", ""⟩,
   ⟨"third", 9, 3, 0, 1, "", ""⟩]

/-- Concrete two-row table with equal positive views for the
consistency-insight claim. -/
def wVarInput : List Video :=
  [⟨"a", 1, 1, 0, 1, "", ""⟩, ⟨"b", 1, 2, 0, 1, "", ""⟩]

/-- Statement of the specification for the median: the middle value of
the ascending-sorted views for an odd count, and the average of the two
middle values for an even count. -/
def specMedian (l : List ℚ) : ℚ :=
  let s := List.insertionSort (fun a b : ℚ => a ≤ b) l
  if l.length % 2 = 1 then s.getD (l.length / 2) 0
  else (s.getD (l.length / 2 - 1) 0 + s.getD (l.length / 2) 0) / 2

/-- Sorting a non-empty table never yields the empty list. -/
theorem sortByViewsDesc_ne_nil (l : List Video) (hl : l ≠ []) :
    sortByViewsDesc l ≠ [] := by
  intro h
  apply hl
  have hp := List.perm_insertionSort (fun a b : Video => b.views ≤ a.views) l
  rw [sortByViewsDesc] at h
  rw [h] at hp
  exact (List.Perm.nil_eq hp).symm

/-- Sorting preserves the length of the table. -/
theorem sortByViewsDesc_length (l : List Video) :
    (sortByViewsDesc l).length = l.length :=
  (List.perm_insertionSort (fun a b : Video => b.views ≤ a.views) l).length_eq

/-- Sorting preserves membership in the table. -/
theorem mem_sortByViewsDesc (l : List Video) (v : Video) :
    v ∈ sortByViewsDesc l ↔ v ∈ l :=
  (List.perm_insertionSort (fun a b : Video => b.views ≤ a.views) l).mem_iff

/-- C4: the engagement-tier insight selects exactly one tier by testing
exclusive lower bounds in order: strictly above 3 is high, otherwise
strictly above 1 is moderate, otherwise low; a rate of exactly 3 selects
the moderate tier. -/
theorem claim_C4_engagement_tiers :
    (∀ r : ℚ,
      (engagementInsight r = .high ↔ 3 < r) ∧
      (engagementInsight r = .moderate ↔ 1 < r ∧ r ≤ 3) ∧
      (engagementInsight r = .low ↔ r ≤ 1)) ∧
    engagementInsight 3 = .moderate := by
  refine ⟨fun r => ?_, by norm_num [engagementInsight]⟩
  unfold engagementInsight
  split_ifs with h1 h2
  · refine ⟨by simp [h1], ?_, ?_⟩
    · simp only [reduceCtorEq, false_iff]
      rintro ⟨-, h⟩
      linarith
    · simp only [reduceCtorEq, false_iff]
      intro h
      linarith
  · refine ⟨?_, by simp [h2, le_of_not_lt h1], ?_⟩
    · simp only [reduceCtorEq, false_iff]
      exact h1
    · simp only [reduceCtorEq, false_iff]
      intro h
      linarith
  · refine ⟨?_, ?_, by simp [le_of_not_lt h2]⟩
    · simp only [reduceCtorEq, false_iff]
      exact h1
    · simp only [reduceCtorEq, false_iff]
      rintro ⟨h, -⟩
      exact h2 h

/-- C8: a storage failure inside the aggregate query is caught;
`get_channel_overview` returns the empty table and
`analyze_video_performance` returns the empty-analysis/empty-table
tuple, and neither propagates the exception. -/
theorem claim_C8_storage_failure_caught (e : String) :
    get_channel_overview (.error e) = [] ∧
    analyze_video_performance (.error e) = .pair none [] :=
  ⟨rfl, rfl⟩

/-- C2 failing input: a stored channel with zero stored videos.  The
empty video table makes `analyze_video_performance` return the bare
empty dict, whose unpacking in `generate_insights_report` raises a
`ValueError` that lands in the generic `except` branch — not in either
explicit no-data outcome. -/
theorem claim_C2_empty_table_generic_error :
    generate_insights_report (.ok [sampleChannel]) (.ok ([] : List Video)) =
      .caughtError ∧
    generate_insights_report (.ok [sampleChannel]) (.ok ([] : List Video)) ≠
      .noVideoData ∧
    generate_insights_report (.ok [sampleChannel]) (.ok ([] : List Video)) ≠
      .noChannelData := by
  refine ⟨rfl, ?_, ?_⟩ <;> intro h <;> exact absurd h (by decide)

/-- C10: `analyze_video_performance` has no fixed result shape — bare
empty dict on the empty table, analysis/table tuple otherwise — so the
tuple-unpacking callers land in their generic exception handlers on the
empty-data path. -/
theorem claim_C10_unstable_result_shape (l : List Video) (hl : l ≠ []) :
    analyze_video_performance (.ok ([] : List Video)) = .emptyDict ∧
    (∀ e : String, analyze_video_performance (.error e) = .pair none []) ∧
    analyze_video_performance (.ok l) =
      .pair (some (mkAnalysis (sortByViewsDesc l))) (sortByViewsDesc l) ∧
    unpack2 .emptyDict = none ∧
    generate_insights_report (.ok [sampleChannel]) (.ok ([] : List Video)) =
      .caughtError ∧
    create_performance_visualizations (.ok ([] : List Video)) = .caughtError := by
  refine ⟨rfl, fun e => rfl, ?_, rfl, rfl, rfl⟩
  unfold analyze_video_performance
  have h : (sortByViewsDesc l).isEmpty = false := by
    rw [List.isEmpty_eq_false]
    exact sortByViewsDesc_ne_nil l hl
  simp [h]

/-- Witness instantiating the shape claim at a singleton table. -/
theorem claim_C10_unstable_result_shape_witness :
    wTenInput ≠ [] ∧
    (analyze_video_performance (.ok ([] : List Video)) = .emptyDict ∧
    (∀ e : String, analyze_video_performance (.error e) = .pair none []) ∧
    analyze_video_performance (.ok wTenInput) =
      .pair (some (mkAnalysis (sortByViewsDesc wTenInput)))
        (sortByViewsDesc wTenInput) ∧
    unpack2 .emptyDict = none ∧
    generate_insights_report (.ok [sampleChannel]) (.ok ([] : List Video)) =
      .caughtError ∧
    create_performance_visualizations (.ok ([] : List Video)) = .caughtError) :=
  ⟨by decide, claim_C10_unstable_result_shape wTenInput (by decide)⟩

/-- C9 (amended part): the zero-videos divisions are short-circuited by
the empty-table check, while the coefficient-of-variation division by a
zero mean is not guarded — the NaN/inf comparison fails and the
high-variability statement is selected instead of a no-data signal. -/
theorem claim_C9_zero_divisor_behavior (l : List Video)
    (hm : mean ((sortByViewsDesc l).map (fun v => v.views)) = 0) :
    analyze_video_performance (.ok ([] : List Video)) = .emptyDict ∧
    consistencyInsight ((sortByViewsDesc l).map (fun v => v.views)) =
      .highVariability := by
  refine ⟨rfl, ?_⟩
  have hfalse : cvLt50 ((sortByViewsDesc l).map (fun v => v.views)) = false := by
    simp [cvLt50, hm]
  simp [consistencyInsight, hfalse]


/-- Reading a sorted list through `getD` is monotone inside the range. -/
theorem sorted_getD_mono (s : List ℚ)
    (hs : List.Sorted (fun a b : ℚ => a ≤ b) s) {i j : ℕ} (hij : i ≤ j)
    (hj : j < s.length) : s.getD i 0 ≤ s.getD j 0 := by
  have hi : i < s.length := lt_of_le_of_lt hij hj
  rw [List.getD_eq_get s 0 hi, List.getD_eq_get s 0 hj]
  exact hs.rel_get_of_le (Fin.mk_le_mk.mpr hij)

/-- In a sorted list the interpolation upper sample is at least the
lower sample, also when the upper index falls off the end and the
`getD` default (the lower sample) is returned. -/
theorem getD_succ_ge (s : List ℚ)
    (hs : List.Sorted (fun a b : ℚ => a ≤ b) s) (i : ℕ) :
    s.getD i 0 ≤ s.getD (i + 1) (s.getD i 0) := by
  by_cases hc : i + 1 < s.length
  · have hi : i < s.length := Nat.lt_of_succ_lt hc
    rw [List.getD_eq_get s _ hc, List.getD_eq_get s 0 hi]
    exact hs.rel_get_of_le (Fin.mk_le_mk.mpr (Nat.le_succ i))
  · rw [List.getD_eq_default s _ (Nat.le_of_not_lt hc)]

/-- Interpolation never goes below the lower sample. -/
theorem interpolate_ge_lo (s : List ℚ)
    (hs : List.Sorted (fun a b : ℚ => a ≤ b) s) (h : ℚ) :
    s.getD (⌊h⌋).toNat 0 ≤ interpolate s h := by
  unfold interpolate
  have hf0 : (0 : ℚ) ≤ h - (⌊h⌋ : ℚ) := by
    have := Int.floor_le h
    linarith
  have hd := getD_succ_ge s hs (⌊h⌋).toNat
  nlinarith [mul_nonneg hf0 (sub_nonneg.mpr hd)]

/-- Interpolation never goes above the upper sample. -/
theorem interpolate_le_hi (s : List ℚ)
    (hs : List.Sorted (fun a b : ℚ => a ≤ b) s) (h : ℚ) :
    interpolate s h ≤ s.getD ((⌊h⌋).toNat + 1) (s.getD (⌊h⌋).toNat 0) := by
  unfold interpolate
  have hf1 : h - (⌊h⌋ : ℚ) ≤ 1 := by
    have := Int.lt_floor_add_one h
    linarith
  have hd := getD_succ_ge s hs (⌊h⌋).toNat
  nlinarith [mul_nonneg (by linarith : (0:ℚ) ≤ 1 - (h - (⌊h⌋ : ℚ)))
    (sub_nonneg.mpr hd)]

/-- Linear interpolation between order statistics of a sorted list is
monotone in the fractional index, inside the index range. -/
theorem interpolate_mono (s : List ℚ)
    (hs : List.Sorted (fun a b : ℚ => a ≤ b) s) {ha hb : ℚ}
    (h0a : 0 ≤ ha) (hab : ha ≤ hb) (hbn : hb ≤ (s.length : ℚ) - 1) :
    interpolate s ha ≤ interpolate s hb := by
  have hfl : ⌊ha⌋ ≤ ⌊hb⌋ := Int.floor_mono hab
  have hfann : 0 ≤ ⌊ha⌋ := Int.floor_nonneg.mpr h0a
  have hzb : ⌊hb⌋ ≤ (s.length : ℤ) - 1 := by
    exact_mod_cast le_trans (Int.floor_le hb) hbn
  have hblt : (⌊hb⌋).toNat < s.length := by omega
  rcases eq_or_lt_of_le hfl with heq | hlt
  · unfold interpolate
    rw [← heq]
    have hd := getD_succ_ge s hs (⌊ha⌋).toNat
    nlinarith [mul_le_mul_of_nonneg_right hab (sub_nonneg.mpr hd)]
  · have step1 := interpolate_le_hi s hs ha
    have hidx : (⌊ha⌋).toNat + 1 ≤ (⌊hb⌋).toNat := by omega
    have hr : (⌊ha⌋).toNat + 1 < s.length := lt_of_le_of_lt hidx hblt
    have step2 : s.getD ((⌊ha⌋).toNat + 1) (s.getD (⌊ha⌋).toNat 0) ≤
        s.getD (⌊hb⌋).toNat 0 := by
      rw [List.getD_eq_get s _ hr, List.getD_eq_get s 0 hblt]
      exact hs.rel_get_of_le (Fin.mk_le_mk.mpr hidx)
    have step3 := interpolate_ge_lo s hs hb
    linarith

/-- Quantiles of a non-empty list are monotone in the quantile level. -/
theorem quantile_mono (l : List ℚ) (hl : l ≠ []) {p q : ℚ} (hp : 0 ≤ p)
    (hpq : p ≤ q) (hq : q ≤ 1) : quantile l p ≤ quantile l q := by
  unfold quantile
  have hn : 1 ≤ l.length := List.length_pos.mpr hl
  have hn1 : (0:ℚ) ≤ (l.length : ℚ) - 1 := by
    have h1 : (1:ℚ) ≤ (l.length : ℚ) := by exact_mod_cast hn
    linarith
  apply interpolate_mono _ (List.sorted_insertionSort _ l)
  · exact mul_nonneg hn1 hp
  · exact mul_le_mul_of_nonneg_left hpq hn1
  · rw [List.length_insertionSort]
    calc ((l.length : ℚ) - 1) * q ≤ ((l.length : ℚ) - 1) * 1 :=
        mul_le_mul_of_nonneg_left hq hn1
    _ = (l.length : ℚ) - 1 := mul_one _

/-- Counting three mutually exclusive and jointly exhaustive predicates
over a list partitions its length. -/
theorem countP_three_partition {α : Type} (p q r : α → Bool) (l : List α) :
    (∀ x ∈ l, (p x = true ∧ q x = false ∧ r x = false) ∨
      (p x = false ∧ q x = true ∧ r x = false) ∨
      (p x = false ∧ q x = false ∧ r x = true)) →
    l.countP p + l.countP q + l.countP r = l.length := by
  induction l with
  | nil => intro _; simp
  | cons a t ih =>
    intro hx
    have ha := hx a (List.mem_cons_self a t)
    have iht := ih (fun x hm => hx x (List.mem_cons_of_mem a hm))
    rw [List.countP_cons, List.countP_cons, List.countP_cons, List.length_cons]
    rcases ha with ⟨u1, u2, u3⟩ | ⟨u1, u2, u3⟩ | ⟨u1, u2, u3⟩ <;>
      rw [u1, u2, u3] <;> simp <;> omega

/-- Every row of a non-empty table satisfies exactly one of the three
performance-bucket predicates. -/
theorem bucket_trichotomy (vs : List ℚ) (hvs : vs ≠ []) (v : Video) :
    (highPerf vs v = true ∧ medPerf vs v = false ∧ lowPerf vs v = false) ∨
    (highPerf vs v = false ∧ medPerf vs v = true ∧ lowPerf vs v = false) ∨
    (highPerf vs v = false ∧ medPerf vs v = false ∧ lowPerf vs v = true) := by
  have hq : quantile vs (1/4) ≤ quantile vs (3/4) :=
    quantile_mono vs hvs (by norm_num) (by norm_num) (by norm_num)
  unfold highPerf medPerf lowPerf
  set q1 := quantile vs (1/4) with hq1def
  set q3 := quantile vs (3/4) with hq3def
  rcases lt_or_le q3 v.views with hH | hH
  · left
    have hm : ¬ (v.views ≤ q3) := not_le.mpr hH
    have hl2 : ¬ (v.views < q1) := not_lt.mpr (le_trans hq (le_of_lt hH))
    exact ⟨by simp [hH], by simp [hm], by simp [hl2]⟩
  · rcases le_or_lt q1 v.views with hL | hL
    · right; left
      exact ⟨by simp [not_lt.mpr hH], by simp [hL, hH], by simp [not_lt.mpr hL]⟩
    · right; right
      have hh2 : ¬ (q3 < v.views) := not_lt.mpr (le_trans (le_of_lt hL) hq)
      have hm2 : ¬ (q1 ≤ v.views) := not_le.mpr hL
      exact ⟨by simp [hh2], by simp [hm2], by simp [hL]⟩

/-- C1: the three performance buckets of a non-empty table partition
its rows — the counts sum to the row count and no row satisfies two
bucket predicates at once. -/
theorem claim_C1_bucket_partition (l : List Video) (hl : l ≠ []) :
    ((mkAnalysis (sortByViewsDesc l)).view_distribution.high_performers +
      (mkAnalysis (sortByViewsDesc l)).view_distribution.medium_performers +
      (mkAnalysis (sortByViewsDesc l)).view_distribution.low_performers =
      (mkAnalysis (sortByViewsDesc l)).total_videos) ∧
    ∀ v ∈ sortByViewsDesc l,
      ¬(highPerf ((sortByViewsDesc l).map fun x => x.views) v = true ∧
        medPerf ((sortByViewsDesc l).map fun x => x.views) v = true) ∧
      ¬(highPerf ((sortByViewsDesc l).map fun x => x.views) v = true ∧
        lowPerf ((sortByViewsDesc l).map fun x => x.views) v = true) ∧
      ¬(medPerf ((sortByViewsDesc l).map fun x => x.views) v = true ∧
        lowPerf ((sortByViewsDesc l).map fun x => x.views) v = true) := by
  have hdne := sortByViewsDesc_ne_nil l hl
  have hvs : (sortByViewsDesc l).map (fun x => x.views) ≠ [] := by
    cases hsd : sortByViewsDesc l with
    | nil => exact absurd hsd hdne
    | cons a t => simp [hsd]
  constructor
  · simp only [mkAnalysis]
    exact countP_three_partition _ _ _ _ (fun v _ => bucket_trichotomy _ hvs v)
  · intro v hv
    rcases bucket_trichotomy _ hvs v with ⟨u1, u2, u3⟩ | ⟨u1, u2, u3⟩ | ⟨u1, u2, u3⟩ <;>
      exact ⟨by simp [u1, u2, u3], by simp [u1, u2, u3], by simp [u1, u2, u3]⟩

/-- Witness instantiating the bucket partition at views 10, 20, 30, 40. -/
theorem claim_C1_bucket_partition_witness :
    wOneInput ≠ [] ∧
    ((mkAnalysis (sortByViewsDesc wOneInput)).view_distribution.high_performers +
      (mkAnalysis (sortByViewsDesc wOneInput)).view_distribution.medium_performers +
      (mkAnalysis (sortByViewsDesc wOneInput)).view_distribution.low_performers =
      (mkAnalysis (sortByViewsDesc wOneInput)).total_videos) :=
  ⟨by decide, (claim_C1_bucket_partition wOneInput (by decide)).1⟩

/-- Quantiles of a constant non-empty list collapse to the constant. -/
theorem quantile_const (l : List ℚ) (hl : l ≠ []) (c : ℚ)
    (hc : ∀ x ∈ l, x = c) {q : ℚ} (h0 : 0 ≤ q) (h1 : q ≤ 1) :
    quantile l q = c := by
  unfold quantile interpolate
  have hslen : (List.insertionSort (fun a b : ℚ => a ≤ b) l).length = l.length :=
    List.length_insertionSort (fun a b : ℚ => a ≤ b) l
  have hsmem : ∀ x ∈ List.insertionSort (fun a b : ℚ => a ≤ b) l, x = c :=
    fun x hx => hc x ((List.perm_insertionSort _ l).mem_iff.mp hx)
  have hn : 1 ≤ l.length := List.length_pos.mpr hl
  have hn1 : (0:ℚ) ≤ (l.length : ℚ) - 1 := by
    have hone : (1:ℚ) ≤ (l.length : ℚ) := by exact_mod_cast hn
    linarith
  have hH0 : 0 ≤ ((l.length : ℚ) - 1) * q := mul_nonneg hn1 h0
  have hHn : ((l.length : ℚ) - 1) * q ≤ (l.length : ℚ) - 1 := by
    calc ((l.length : ℚ) - 1) * q ≤ ((l.length : ℚ) - 1) * 1 :=
        mul_le_mul_of_nonneg_left h1 hn1
    _ = (l.length : ℚ) - 1 := mul_one _
  have hz : ⌊((l.length : ℚ) - 1) * q⌋ ≤ (l.length : ℤ) - 1 := by
    exact_mod_cast le_trans (Int.floor_le _) hHn
  have hilt : (⌊((l.length : ℚ) - 1) * q⌋).toNat <
      (List.insertionSort (fun a b : ℚ => a ≤ b) l).length := by
    rw [hslen]
    omega
  have hlo : (List.insertionSort (fun a b : ℚ => a ≤ b) l).getD
      (⌊((l.length : ℚ) - 1) * q⌋).toNat 0 = c := by
    rw [List.getD_eq_get _ 0 hilt]
    exact hsmem _ (List.get_mem _ _ _)
  have hhi : (List.insertionSort (fun a b : ℚ => a ≤ b) l).getD
      ((⌊((l.length : ℚ) - 1) * q⌋).toNat + 1)
      ((List.insertionSort (fun a b : ℚ => a ≤ b) l).getD
        (⌊((l.length : ℚ) - 1) * q⌋).toNat 0) = c := by
    by_cases hc2 : (⌊((l.length : ℚ) - 1) * q⌋).toNat + 1 <
        (List.insertionSort (fun a b : ℚ => a ≤ b) l).length
    · rw [List.getD_eq_get _ _ hc2]
      exact hsmem _ (List.get_mem _ _ _)
    · rw [List.getD_eq_default _ _ (Nat.le_of_not_lt hc2)]
      exact hlo
  rw [hhi, hlo]
  ring

/-- C7: when every view count is identical, both percentiles collapse
to the common value, so no video is high or low and every video is
counted as medium. -/
theorem claim_C7_identical_views (l : List Video) (hl : l ≠ []) (c : ℚ)
    (hc : ∀ v ∈ l, v.views = c) :
    (mkAnalysis (sortByViewsDesc l)).view_distribution.high_performers = 0 ∧
    (mkAnalysis (sortByViewsDesc l)).view_distribution.low_performers = 0 ∧
    (mkAnalysis (sortByViewsDesc l)).view_distribution.medium_performers =
      (mkAnalysis (sortByViewsDesc l)).total_videos := by
  have hdne := sortByViewsDesc_ne_nil l hl
  have hcdf : ∀ v ∈ sortByViewsDesc l, v.views = c :=
    fun v hv => hc v ((mem_sortByViewsDesc l v).mp hv)
  have hvsne : (sortByViewsDesc l).map (fun v => v.views) ≠ [] := by
    cases hsd : sortByViewsDesc l with
    | nil => exact absurd hsd hdne
    | cons a t => simp [hsd]
  have hvsc : ∀ x ∈ (sortByViewsDesc l).map (fun v => v.views), x = c := by
    intro x hx
    rcases List.mem_map.mp hx with ⟨v, hv, rfl⟩
    exact hcdf v hv
  have h25 : quantile ((sortByViewsDesc l).map (fun v => v.views)) (1/4) = c :=
    quantile_const _ hvsne c hvsc (by norm_num) (by norm_num)
  have h75 : quantile ((sortByViewsDesc l).map (fun v => v.views)) (3/4) = c :=
    quantile_const _ hvsne c hvsc (by norm_num) (by norm_num)
  refine ⟨?_, ?_, ?_⟩
  · simp only [mkAnalysis]
    rw [List.countP_eq_zero]
    intro v hv
    simp only [highPerf, decide_eq_true_eq]
    rw [h75, hcdf v hv]
    exact lt_irrefl c
  · simp only [mkAnalysis]
    rw [List.countP_eq_zero]
    intro v hv
    simp only [lowPerf, decide_eq_true_eq]
    rw [h25, hcdf v hv]
    exact lt_irrefl c
  · simp only [mkAnalysis]
    rw [List.countP_eq_length]
    intro v hv
    simp only [medPerf, Bool.and_eq_true, decide_eq_true_eq]
    rw [h25, h75, hcdf v hv]
    exact ⟨le_refl c, le_refl c⟩

/-- Witness instantiating the identical-views claim at three videos
with 7 views each. -/
theorem claim_C7_identical_views_witness :
    wSevenInput ≠ [] ∧
    ((mkAnalysis (sortByViewsDesc wSevenInput)).view_distribution.high_performers = 0 ∧
     (mkAnalysis (sortByViewsDesc wSevenInput)).view_distribution.low_performers = 0 ∧
     (mkAnalysis (sortByViewsDesc wSevenInput)).view_distribution.medium_performers =
       (mkAnalysis (sortByViewsDesc wSevenInput)).total_videos) :=
  ⟨by decide, claim_C7_identical_views wSevenInput (by decide) 7 (by decide)⟩

/-- The 50th percentile with linear interpolation is exactly the
classical median: the middle element of the sorted values for an odd
count, the average of the two middle elements for an even count. -/
theorem quantile_half_eq_specMedian (vs : List ℚ) (h : vs ≠ []) :
    quantile vs (1/2) = specMedian vs := by
  have hn : 1 ≤ vs.length := List.length_pos.mpr h
  have hslen : (List.insertionSort (fun a b : ℚ => a ≤ b) vs).length = vs.length :=
    List.length_insertionSort (fun a b : ℚ => a ≤ b) vs
  simp only [quantile, specMedian, interpolate]
  rcases Nat.even_or_odd vs.length with he | ho
  · obtain ⟨k, hk⟩ := he
    have hk1 : 1 ≤ k := by omega
    have hmod : ¬ vs.length % 2 = 1 := by omega
    have hdiv : vs.length / 2 = k := by omega
    have hq2 : (vs.length : ℚ) = (k : ℚ) + (k : ℚ) := by
      rw [hk]; push_cast; ring
    have hH : ((vs.length : ℚ) - 1) * (1/2) = (k : ℚ) - 1/2 := by
      rw [hq2]; ring
    have hfl : ⌊((vs.length : ℚ) - 1) * (1/2)⌋ = (k : ℤ) - 1 := by
      rw [hH, Int.floor_eq_iff]
      push_cast
      constructor <;> linarith
    have htn : ((k : ℤ) - 1).toNat = k - 1 := by omega
    have hsucc : (k - 1) + 1 = k := by omega
    rw [hfl, htn, hsucc, if_neg hmod, hdiv]
    have hklt : k < (List.insertionSort (fun a b : ℚ => a ≤ b) vs).length := by
      rw [hslen]; omega
    have hgd : (List.insertionSort (fun a b : ℚ => a ≤ b) vs).getD k
        ((List.insertionSort (fun a b : ℚ => a ≤ b) vs).getD (k - 1) 0) =
        (List.insertionSort (fun a b : ℚ => a ≤ b) vs).getD k 0 := by
      rw [List.getD_eq_get _ _ hklt, List.getD_eq_get _ 0 hklt]
    rw [hgd]
    have hfr : ((vs.length : ℚ) - 1) * (1/2) - (((k : ℤ) - 1 : ℤ) : ℚ) = 1/2 := by
      rw [hH]; push_cast; ring
    rw [hfr]
    ring
  · obtain ⟨k, hk⟩ := ho
    have hmod : vs.length % 2 = 1 := by omega
    have hdiv : vs.length / 2 = k := by omega
    have hq2 : (vs.length : ℚ) = 2 * (k : ℚ) + 1 := by
      rw [hk]; push_cast; ring
    have hH : ((vs.length : ℚ) - 1) * (1/2) = (k : ℚ) := by
      rw [hq2]; ring
    have hfl : ⌊((vs.length : ℚ) - 1) * (1/2)⌋ = (k : ℤ) := by
      rw [hH]; exact Int.floor_natCast k
    have htn : ((k : ℤ)).toNat = k := by omega
    rw [hfl, htn, if_pos hmod, hdiv]
    have hfr : ((vs.length : ℚ) - 1) * (1/2) - (((k : ℤ) : ℤ) : ℚ) = 0 := by
      rw [hH]; push_cast; ring
    rw [hfr]
    ring

/-- C6: `median_views` of a non-empty table is the standard statistical
median of the view counts — the middle value for an odd number of rows,
the average of the two middle values for an even number. -/
theorem claim_C6_median_standard (l : List Video) (hl : l ≠ []) :
    (mkAnalysis (sortByViewsDesc l)).median_views =
      specMedian ((sortByViewsDesc l).map fun v => v.views) := by
  have hdne := sortByViewsDesc_ne_nil l hl
  have hvs : (sortByViewsDesc l).map (fun v => v.views) ≠ [] := by
    cases hsd : sortByViewsDesc l with
    | nil => exact absurd hsd hdne
    | cons a t => simp [hsd]
  simp only [mkAnalysis]
  exact quantile_half_eq_specMedian _ hvs

/-- Witness instantiating the median claim, with the concrete values of
the specification: views 10, 20, 30, 40 give 25 and views 10, 20, 30
give 20. -/
theorem claim_C6_median_standard_witness :
    wOneInput ≠ [] ∧
    (mkAnalysis (sortByViewsDesc wOneInput)).median_views =
      specMedian ((sortByViewsDesc wOneInput).map fun v => v.views) ∧
    (mkAnalysis (sortByViewsDesc wOneInput)).median_views = 25 ∧
    (mkAnalysis (sortByViewsDesc wOddInput)).median_views = 20 :=
  ⟨by decide, claim_C6_median_standard wOneInput (by decide),
    by norm_num [mkAnalysis, sortByViewsDesc, quantile, interpolate, mean,
      List.insertionSort, List.orderedInsert, wOneInput],
    by norm_num [mkAnalysis, sortByViewsDesc, quantile, interpolate, mean,
      List.insertionSort, List.orderedInsert, wOddInput]⟩

/-- Head of the stable descending sort: it exists for a non-empty
table, it dominates every stored view count, and it is the first row of
the stored order whose views reach it. -/
theorem sortDesc_head_first_max (l : List Video) (hl : l ≠ []) :
    ∃ b t, sortByViewsDesc l = b :: t ∧ (∀ x ∈ l, x.views ≤ b.views) ∧
      l.find? (fun x => decide (b.views ≤ x.views)) = some b := by
  induction l with
  | nil => exact absurd rfl hl
  | cons v rest ih =>
    by_cases hrest : rest = []
    · subst hrest
      refine ⟨v, [], rfl, ?_, ?_⟩
      · intro x hx
        rcases List.mem_singleton.mp hx with rfl
        exact le_refl _
      · exact List.find?_cons_of_pos _ (by simp)
    · obtain ⟨b, t, hsort, hmax, hfind⟩ := ih hrest
      simp only [sortByViewsDesc, List.insertionSort] at hsort ⊢
      rw [hsort]
      by_cases hvb : b.views ≤ v.views
      · refine ⟨v, b :: t, ?_, ?_, ?_⟩
        · rw [List.orderedInsert, if_pos hvb]
        · intro x hx
          rcases List.mem_cons.mp hx with rfl | hx'
          · exact le_refl _
          · exact le_trans (hmax x hx') hvb
        · exact List.find?_cons_of_pos _ (by simp)
      · refine ⟨b, List.orderedInsert (fun a b : Video => b.views ≤ a.views) v t,
          ?_, ?_, ?_⟩
        · rw [List.orderedInsert, if_neg hvb]
        · intro x hx
          rcases List.mem_cons.mp hx with rfl | hx'
          · exact le_of_lt (not_le.mp hvb)
          · exact hmax x hx'
        · rw [List.find?_cons_of_neg _ (by simpa using hvb)]
          exact hfind

/-- C3: `best_performing` is a stored row whose view count equals the
maximum view count, and with several rows sharing the maximum it is the
first such row of the stored (insertion) order. -/
theorem claim_C3_best_performing (l : List Video) (hl : l ≠ []) :
    (mkAnalysis (sortByViewsDesc l)).best_performing ∈ l ∧
    (∀ x ∈ l, x.views ≤ (mkAnalysis (sortByViewsDesc l)).best_performing.views) ∧
    l.find? (fun x =>
        decide ((mkAnalysis (sortByViewsDesc l)).best_performing.views ≤ x.views)) =
      some (mkAnalysis (sortByViewsDesc l)).best_performing := by
  obtain ⟨b, t, hsort, hmax, hfind⟩ := sortDesc_head_first_max l hl
  have hbp : (mkAnalysis (sortByViewsDesc l)).best_performing = b := by
    simp only [mkAnalysis]
    rw [hsort]
    rfl
  rw [hbp]
  exact ⟨List.mem_of_find?_eq_some hfind, hmax, hfind⟩

/-- Witness instantiating the best-performing claim at a table with a
duplicated maximum: the chosen record is the earlier row titled
second. -/
theorem claim_C3_best_performing_witness :
    wTieInput ≠ [] ∧
    wTieInput.find? (fun x =>
        decide ((mkAnalysis (sortByViewsDesc wTieInput)).best_performing.views ≤
          x.views)) =
      some (mkAnalysis (sortByViewsDesc wTieInput)).best_performing :=
  ⟨by decide, (claim_C3_best_performing wTieInput (by decide)).2.2⟩

/-- The sum of squared deviations is nonnegative. -/
theorem ssd_nonneg (l : List ℚ) : 0 ≤ ssd l := by
  unfold ssd
  apply List.sum_nonneg
  intro x hx
  rcases List.mem_map.mp hx with ⟨y, hy, rfl⟩
  positivity

/-- C5: on a table with at least two rows and positive mean views, the
consistency insight is the exact comparison of the coefficient of
variation — the sample standard deviation (divisor n-1) over the mean,
times 100 — against 50: strictly below 50 selects the consistent
statement, otherwise the high-variability statement. -/
theorem claim_C5_consistency_cv (l : List Video) (h2 : 2 ≤ l.length)
    (hm : 0 < mean ((sortByViewsDesc l).map fun v => v.views)) :
    (consistencyInsight ((sortByViewsDesc l).map fun v => v.views) =
        .consistent ↔
      Real.sqrt ((sampleVar ((sortByViewsDesc l).map fun v => v.views) : ℝ)) /
          ((mean ((sortByViewsDesc l).map fun v => v.views) : ℝ)) * 100 < 50) ∧
    (consistencyInsight ((sortByViewsDesc l).map fun v => v.views) =
        .highVariability ↔
      ¬ (Real.sqrt ((sampleVar ((sortByViewsDesc l).map fun v => v.views) : ℝ)) /
          ((mean ((sortByViewsDesc l).map fun v => v.views) : ℝ)) * 100 < 50)) := by
  have hlen : ((sortByViewsDesc l).map fun v => v.views).length = l.length := by
    rw [List.length_map, sortByViewsDesc_length]
  set vs := (sortByViewsDesc l).map (fun v => v.views) with hvsdef
  have hnot2 : ¬ vs.length < 2 := by omega
  have hmne : ¬ mean vs = 0 := ne_of_gt hm
  have hmnlt : ¬ mean vs < 0 := not_lt.mpr (le_of_lt hm)
  have hcv : cvLt50 vs =
      decide (ssd vs * 10000 < 2500 * ((vs.length : ℚ) - 1) * mean vs ^ 2) := by
    unfold cvLt50
    rw [if_neg hnot2, if_neg hmne, if_neg hmnlt]
  have hn1q : (0:ℚ) < (vs.length : ℚ) - 1 := by
    have hc : (2:ℚ) ≤ (vs.length : ℚ) := by exact_mod_cast (by omega : 2 ≤ vs.length)
    linarith
  have key : (ssd vs * 10000 < 2500 * ((vs.length : ℚ) - 1) * mean vs ^ 2) ↔
      Real.sqrt ((sampleVar vs : ℝ)) / ((mean vs : ℝ)) * 100 < 50 := by
    have hm' : (0:ℝ) < ((mean vs : ℚ) : ℝ) := by exact_mod_cast hm
    have hn1r : (0:ℝ) < ((vs.length : ℝ)) - 1 := by exact_mod_cast hn1q
    have hS0 : (0:ℝ) ≤ ((ssd vs : ℚ) : ℝ) := by exact_mod_cast ssd_nonneg vs
    have hcast : ((sampleVar vs : ℚ) : ℝ) =
        ((ssd vs : ℚ) : ℝ) / ((vs.length : ℝ) - 1) := by
      unfold sampleVar
      push_cast
      ring
    rw [hcast, div_mul_eq_mul_div, div_lt_iff hm']
    constructor
    · intro hQ
      have hQR : ((ssd vs : ℚ) : ℝ) * 10000 <
          2500 * ((vs.length : ℝ) - 1) * ((mean vs : ℚ) : ℝ) ^ 2 := by
        exact_mod_cast hQ
      have hv : ((ssd vs : ℚ) : ℝ) / ((vs.length : ℝ) - 1) <
          (((mean vs : ℚ) : ℝ) / 2) ^ 2 := by
        rw [div_lt_iff hn1r]
        nlinarith
      have hsq : Real.sqrt (((ssd vs : ℚ) : ℝ) / ((vs.length : ℝ) - 1)) <
          ((mean vs : ℚ) : ℝ) / 2 :=
        (Real.sqrt_lt' (by positivity)).mpr hv
      linarith
    · intro hR
      have hsq : Real.sqrt (((ssd vs : ℚ) : ℝ) / ((vs.length : ℝ) - 1)) <
          ((mean vs : ℚ) : ℝ) / 2 := by linarith
      have hv := (Real.sqrt_lt' (by positivity)).mp hsq
      rw [div_lt_iff hn1r] at hv
      have hQR : ((ssd vs : ℚ) : ℝ) * 10000 <
          2500 * ((vs.length : ℝ) - 1) * ((mean vs : ℚ) : ℝ) ^ 2 := by nlinarith
      exact_mod_cast hQR
  have hci1 : consistencyInsight vs = .consistent ↔ cvLt50 vs = true := by
    unfold consistencyInsight
    by_cases hb : cvLt50 vs <;> simp [hb]
  have hci2 : consistencyInsight vs = .highVariability ↔ ¬ cvLt50 vs = true := by
    unfold consistencyInsight
    by_cases hb : cvLt50 vs <;> simp [hb]
  rw [hci1, hci2, hcv, decide_eq_true_eq]
  exact ⟨key, not_congr key⟩

/-- Witness instantiating the consistency claim at two videos with one
view each: equal views give zero variation, the consistent statement. -/
theorem claim_C5_consistency_cv_witness :
    2 ≤ wVarInput.length ∧
    0 < mean ((sortByViewsDesc wVarInput).map fun v => v.views) ∧
    ((consistencyInsight ((sortByViewsDesc wVarInput).map fun v => v.views) =
        .consistent ↔
      Real.sqrt ((sampleVar ((sortByViewsDesc wVarInput).map fun v => v.views) : ℝ)) /
          ((mean ((sortByViewsDesc wVarInput).map fun v => v.views) : ℝ)) * 100 < 50) ∧
    (consistencyInsight ((sortByViewsDesc wVarInput).map fun v => v.views) =
        .highVariability ↔
      ¬ (Real.sqrt ((sampleVar ((sortByViewsDesc wVarInput).map fun v => v.views) : ℝ)) /
          ((mean ((sortByViewsDesc wVarInput).map fun v => v.views) : ℝ)) * 100 < 50))) :=
  ⟨by decide,
   by norm_num [mean, sortByViewsDesc, List.insertionSort, List.orderedInsert, wVarInput],
   claim_C5_consistency_cv wVarInput (by decide)
     (by norm_num [mean, sortByViewsDesc, List.insertionSort, List.orderedInsert,
       wVarInput])⟩

/-- C9 counterexample: a non-empty table whose every view count is zero
has zero mean views, yet the pipeline emits a normally generated report
whose consistency insight is the high-variability statement — there is
no no-data signal for the zero-divisor coefficient of variation. -/
theorem claim_C9_counterexample :
    mean ((sortByViewsDesc zeroViewsInput).map fun v => v.views) = 0 ∧
    reportConsistency (generate_insights_report (.ok [sampleChannel])
        (.ok zeroViewsInput)) = some .highVariability := by
  constructor
  · norm_num [mean, sortByViewsDesc, List.insertionSort, List.orderedInsert,
      zeroViewsInput]
  · norm_num [reportConsistency, generate_insights_report, get_channel_overview,
      unpack2, analyze_video_performance, sortByViewsDesc, List.insertionSort,
      List.orderedInsert, zeroViewsInput, sampleChannel, mkAnalysis,
      consistencyInsight, cvLt50, mean]

/-- Witness instantiating the zero-divisor claim at the all-zero-views
table. -/
theorem claim_C9_zero_divisor_behavior_witness :
    mean ((sortByViewsDesc zeroViewsInput).map fun v => v.views) = 0 ∧
    (analyze_video_performance (.ok ([] : List Video)) = .emptyDict ∧
     consistencyInsight ((sortByViewsDesc zeroViewsInput).map fun v => v.views) =
       .highVariability) :=
  ⟨by norm_num [mean, sortByViewsDesc, List.insertionSort, List.orderedInsert,
      zeroViewsInput],
   claim_C9_zero_divisor_behavior zeroViewsInput
     (by norm_num [mean, sortByViewsDesc, List.insertionSort, List.orderedInsert,
       zeroViewsInput])⟩
